import Mathlib

/-!
Verification of the portfolio app's typing/reveal animation core and
view-composition layer (src/app.js), via a shallow embedding in Lean.

Modelling conventions:
* JS numbers holding small integers are modelled as `Int` (for `charIndex`,
  which is incremented and decremented) or `Nat` (for values that are only
  ever non-negative by construction).
* `String.prototype.substring(0, n)` clamps `n` into `[0, length]`; this is
  `jsSubstring` below.
* `this.texts[this.textIndex]` may be `undefined` (empty array), in which
  case the subsequent `.substring` call throws; fallible steps therefore
  return `Option`.
* Each invocation of `TypingAnimation.type` performs one render and
  schedules timers via `setTimeout`; a step is modelled as a `StepResult`
  carrying the rendered string, the successor state and the list of delays
  of the timers it scheduled.  The 2000 ms pause timer's callback first sets
  `isDeleting := true` and then re-invokes `type`; that assignment is folded
  into the successor state of the overshoot step (no other code reads the
  state in between, so the sequence of renders and delays is unchanged).
-/

namespace Portfolio

/-- JS `s.substring(0, n)`: clamps `n` below at 0 and above at `s.length`. -/
def jsSubstring (s : String) (n : Int) : String :=
  ⟨s.data.take n.toNat⟩

/-- The cursor markup appended after the typed text on every render
(`'<span class="cursor"></span>'` in `TypingAnimation.type`). -/
def cursorSpan : String := "<span class=\"cursor\"></span>"

/-- The mutable state of a `TypingAnimation` instance: `textIndex`,
`charIndex`, `isDeleting` (src/app.js lines 51-53). -/
structure TypingState where
  textIndex : Nat
  charIndex : Int
  isDeleting : Bool
deriving DecidableEq, Repr

/-- Initial state set in the constructor: index 0, cursor 0, typing mode. -/
def initState : TypingState := ⟨0, 0, false⟩

/-- What one invocation of `type()` produced: the string written to
`element.innerHTML`, the state after the invocation (with the pause
callback's `isDeleting := true` folded in, see module comment), and the
delays of the timers scheduled by the invocation. -/
structure StepResult where
  rendered : String
  state : TypingState
  timers : List Nat
deriving DecidableEq, Repr

/-- One invocation of `TypingAnimation.type` (src/app.js lines 56-83) with
typing speed `ts` and deleting speed `ds`.  Returns `none` when
`texts[textIndex]` is `undefined` (the JS code would throw on
`.substring`). -/
def type (texts : List String) (ts ds : Nat) (st : TypingState) :
    Option StepResult :=
  match texts[st.textIndex]? with
  | none => none
  | some currentText =>
    if st.isDeleting then
      let rendered := jsSubstring currentText st.charIndex ++ cursorSpan
      let c := st.charIndex - 1
      if c = 0 then
        some ⟨rendered, ⟨(st.textIndex + 1) % texts.length, c, false⟩, [ts]⟩
      else
        some ⟨rendered, ⟨st.textIndex, c, true⟩, [ds]⟩
    else
      let rendered := jsSubstring currentText st.charIndex ++ cursorSpan
      let c := st.charIndex + 1
      if c > (currentText.length : Int) then
        some ⟨rendered, ⟨st.textIndex, c, true⟩, [2000]⟩
      else
        some ⟨rendered, ⟨st.textIndex, c, false⟩, [ts]⟩

/-- The state transition of one `type()` invocation (the speeds do not
affect the successor state; see `type_state_eq`). -/
def typeState (texts : List String) (st : TypingState) : Option TypingState :=
  (type texts 80 50 st).map (·.state)

/-- Run `n` invocations of `type()` from state `st`. -/
def runFrom (texts : List String) (st : TypingState) : Nat → Option TypingState
  | 0 => some st
  | n + 1 => (typeState texts st).bind fun st2 => runFrom texts st2 n

/-- Run `n` invocations of `type()` from the constructor's initial state. -/
def run (texts : List String) (n : Nat) : Option TypingState :=
  runFrom texts initState n

/-- The `(isDeleting, charIndex)` pairs read at the start of each of the
first `n` renders (the state at the moment `element.innerHTML` is
written). -/
def renderLog (texts : List String) (st : TypingState) :
    Nat → Option (List (Bool × Int))
  | 0 => some []
  | n + 1 =>
    (typeState texts st).bind fun st2 =>
      (renderLog texts st2 n).map fun l => (st.isDeleting, st.charIndex) :: l

/-- Number of `type()` invocations in one full type/delete cycle of a
phrase: `length + 1` typing steps (the last one overshoots into the pause)
followed by `length + 1` deleting steps. -/
def cycleSteps (t : String) : Nat := 2 * t.length + 2

/-- Total number of invocations needed to fully cycle the first `j`
phrases. -/
def sumSteps (texts : List String) (j : Nat) : Nat :=
  ((texts.take j).map cycleSteps).sum

/-- Event-loop accounting for the claim that at most one timer is pending at
any instant: `pendingTimers n` is the number of outstanding timers after the
`n`-th invocation fires (the initial synchronous `start()` call counts as
the one outstanding activation at instant 0); each firing consumes its timer
and adds the timers the invocation schedules. -/
def pendingTimers (texts : List String) (ts ds : Nat) : Nat → Option Nat
  | 0 => some 1
  | n + 1 =>
    (run texts n).bind fun st =>
      (type texts ts ds st).bind fun r =>
        (pendingTimers texts ts ds n).map fun p => p - 1 + r.timers.length

/-- States the machine can actually be in between steps: the phrase index is
in range, the cursor is non-negative, bounded by the phrase length while
typing and by length + 1 (the overshoot value reached after the final typing
tick) while deleting, where it is moreover positive. -/
def Inv (texts : List String) (st : TypingState) : Prop :=
  ∃ phrase, texts[st.textIndex]? = some phrase ∧
    0 ≤ st.charIndex ∧
    (st.isDeleting = true →
      1 ≤ st.charIndex ∧ st.charIndex ≤ (phrase.length : Int) + 1) ∧
    (st.isDeleting = false → st.charIndex ≤ (phrase.length : Int))

/-! ### RevealOnScroll: the ScrollAnimator and SkillBarsAnimator callbacks -/

/-- Effect of the `ScrollAnimator` observer callback (src/app.js 96-102) on
one observed element for one visibility-change event: if the entry is
intersecting, add the `'visible'` class, else do nothing.  The `Bool`
records whether the class list contains `'visible'`. -/
def scrollStep (visible : Bool) (isIntersecting : Bool) : Bool :=
  if isIntersecting then true else visible

/-- The element's `'visible'` state after a batch of visibility events. -/
def scrollRun (visible : Bool) (events : List Bool) : Bool :=
  events.foldl scrollStep visible

/-- One skill-card target as the `SkillBarsAnimator` callback sees it
(src/app.js 313-327): whether its class list contains `'visible'`, the
`data-width` attribute of its `.skill-progress` child (`none` when the card
has no such child), the current `--skill-width` style value, and how many
`setProperty` writes have been performed on it. -/
structure SkillTarget where
  visible : Bool
  dataWidth : Option String
  skillWidth : Option String
  writes : Nat
deriving DecidableEq, Repr

/-- Effect of the `SkillBarsAnimator` observer callback on one target for
one visibility-change event: if intersecting, add `'visible'` and, when a
`.skill-progress` child exists, write its `data-width` value to the
`--skill-width` property; otherwise do nothing. -/
def skillStep (t : SkillTarget) (isIntersecting : Bool) : SkillTarget :=
  if isIntersecting then
    match t.dataWidth with
    | some w =>
      { t with visible := true, skillWidth := some w, writes := t.writes + 1 }
    | none => { t with visible := true }
  else t

/-- The target's state after a sequence of visibility events. -/
def skillRun (t : SkillTarget) (events : List Bool) : SkillTarget :=
  events.foldl skillStep t

/-- A freshly rendered skill-bar target whose recorded proficiency
(`data-width`) is `w`: not yet visible, `--skill-width` unset, no writes. -/
def freshSkillTarget (w : String) : SkillTarget := ⟨false, some w, none, 0⟩

/-! ### ContactForm -/

/-- A character allowed in every group of the email regex: the class
`[^\s@]` (Lean's `Char.isWhitespace` standing in for the JS `\s` class). -/
def okChar (c : Char) : Bool := !c.isWhitespace && c != '@'

/-- Whether the list contains a `'.'` with at least one element after it. -/
def dotWithTail : List Char → Bool
  | [] => false
  | [_] => false
  | '.' :: _ :: _ => true
  | _ :: rest => dotWithTail rest

/-- Whether the list contains a `'.'` that is neither its first nor its
last element. -/
def interiorDot : List Char → Bool
  | [] => false
  | _ :: rest => dotWithTail rest

/-- Split a character list at every `'@'` (the groups between the `@`s). -/
def splitAtSign : List Char → List (List Char)
  | [] => [[]]
  | c :: rest =>
    if c = '@' then [] :: splitAtSign rest
    else
      match splitAtSign rest with
      | [] => [[c]]
      | g :: gs => (c :: g) :: gs

/-- The email check `/^[^\s@]+@[^\s@]+\.[^\s@]+$/.test(value)` of
`validateField` (src/app.js 213): the string decomposes as
`local@domain` with both parts non-empty and free of whitespace and `@`,
and the domain containing a `.` flanked by at least one character on each
side.  (With backtracking, the regex matches exactly these strings: all
three groups exclude `@`, so the `@` is unique, and the `.` may sit at any
interior position of the domain.) -/
def emailShape (s : String) : Bool :=
  match splitAtSign s.data with
  | [loc, dom] =>
    !loc.isEmpty && loc.all okChar && !dom.isEmpty && dom.all okChar &&
    interiorDot dom
  | _ => false

/-- JS `!value.trim()`: the trimmed value is the empty string exactly when
every character of the value is whitespace. -/
def isBlank (s : String) : Bool := s.data.all (·.isWhitespace)

/-- Per-field validation `validateField` (src/app.js 199-230): a `required`
field must have a non-blank value; an `email`-type field with a non-blank
value must match the email regex (tested on the untrimmed value). -/
def validateField (required isEmail : Bool) (v : String) : Bool :=
  (!required || !isBlank v) && (!isEmail || isBlank v || emailShape v)

/-- The contact form's field values (inputs `#name`, `#email`, `#subject`,
`#message` in `renderContact`, src/app.js 673-701). -/
structure ContactFields where
  name : String
  email : String
  subject : String
  message : String
deriving DecidableEq, Repr

/-- `validateForm` (src/app.js 232-243): every input must validate.  In the
rendered form, `name`, `email` and `message` carry `required` and only
`email` has type `email`; `subject` is unconstrained. -/
def validateForm (f : ContactFields) : Bool :=
  validateField true false f.name && validateField true true f.email &&
  validateField false false f.subject && validateField true false f.message

/-- `simulateSubmission` (src/app.js 298-304): resolves unconditionally
after a fixed delay; no network request is made. -/
def simulateSubmission (_ : ContactFields) : Except String Unit := .ok ()

/-- The fixed simulated network delay (src/app.js 302). -/
def simulatedDelayMs : Nat := 1500

/-- A status banner shown by `showStatus` (src/app.js 245-257). -/
inductive FormStatus where
  | error (msg : String)
  | success (msg : String)
deriving DecidableEq, Repr

/-- Observable outcome of one `handleSubmit` call: the banner shown, the
data handed to the (simulated) send if any, the field values afterwards,
and whether any real network request was made. -/
structure SubmitOutcome where
  status : FormStatus
  sentData : Option ContactFields
  fieldsAfter : ContactFields
  usedNetwork : Bool
deriving DecidableEq, Repr

/-- `form.reset()` clears every input. -/
def resetFields : ContactFields := ⟨"", "", "", ""⟩

/-- `handleSubmit` (src/app.js 259-296; banner texts abbreviated): on
validation failure show the error banner and stop with the fields
untouched; otherwise await the simulated submission — which always
resolves — then show the success banner and reset the form.  The catch
branch is unreachable because `simulateSubmission` never rejects, and no
branch performs network I-O. -/
def handleSubmit (f : ContactFields) : SubmitOutcome :=
  if !validateForm f then
    ⟨.error "Please fix the errors before submitting", none, f, false⟩
  else
    match simulateSubmission f with
    | .ok _ =>
      ⟨.success "Message sent successfully", some f, resetFields, false⟩
    | .error _ => ⟨.error "Failed to send message", some f, f, false⟩

/-! ### View composition: renderSkills and renderProjects -/

/-- One entry of `portfolioData.skills` (src/app.js 355-362). -/
structure Skill where
  name : String
  proficiency : Nat
  category : String
  icon : String
deriving DecidableEq, Repr

/-- One entry of `portfolioData.featuredProjects` (src/app.js 364-409). -/
structure Project where
  title : String
  description : String
  problem : String
  solution : String
  impact : String
  techStack : List String
  github : String
  demo : String
  icon : String
deriving DecidableEq, Repr

/-- One skill card from the `skills.map` template of `renderSkills`
(src/app.js 524-535); inter-tag indentation whitespace elided. -/
def skillCardHtml (s : Skill) : String :=
  "<div class=\"skill-card fade-in\"><div class=\"skill-header\">" ++
  "<i class=\"skill-icon " ++ s.icon ++ "\"></i>" ++
  "<h3 class=\"skill-name\">" ++ s.name ++ "</h3></div>" ++
  "<div class=\"skill-bar\"><div class=\"skill-progress\" data-width=\"" ++
  toString s.proficiency ++ "%\"></div></div>" ++
  "<div class=\"skill-percentage\">" ++ toString s.proficiency ++
  "%</div></div>"

/-- `renderSkills` (src/app.js 518-539): the section wrapper around the
`join('')` of the per-skill cards. -/
def renderSkills (skills : List Skill) : String :=
  "<section id=\"skills\" class=\"section\" role=\"region\"" ++
  " aria-labelledby=\"skills-title\">" ++
  "<h2 id=\"skills-title\" class=\"section-title fade-in\">Skills</h2>" ++
  "<div class=\"skills-grid\">" ++
  String.join (skills.map skillCardHtml) ++ "</div></section>"

/-- One tech tag from the `techStack.map` template (src/app.js 561). -/
def techTagHtml (t : String) : String :=
  "<span class=\"tech-tag\">" ++ t ++ "</span>"

/-- One project card from the `featuredProjects.map` template of
`renderProjects` (src/app.js 547-572); indentation whitespace elided. -/
def projectCardHtml (p : Project) : String :=
  "<article class=\"project-card fade-in\"><div class=\"project-image\">" ++
  "<i class=\"" ++ p.icon ++ "\"></i></div><div class=\"project-content\">" ++
  "<h3 class=\"project-title\">" ++ p.title ++ "</h3>" ++
  "<p class=\"project-description\">" ++ p.description ++ "</p>" ++
  "<div class=\"project-details\">" ++
  "<p><strong>Problem:</strong> " ++ p.problem ++ "</p>" ++
  "<p><strong>Solution:</strong> " ++ p.solution ++ "</p>" ++
  "<p><strong>Impact:</strong> " ++ p.impact ++ "</p></div>" ++
  "<div class=\"tech-stack\">" ++
  String.join (p.techStack.map techTagHtml) ++ "</div>" ++
  "<div class=\"project-links\">" ++
  "<a href=\"" ++ p.github ++ "\" class=\"btn btn-primary btn-small\"" ++
  " target=\"_blank\" rel=\"noopener noreferrer\">" ++
  "<i class=\"fab fa-github\"></i> GitHub</a>" ++
  "<a href=\"" ++ p.demo ++ "\" class=\"btn btn-secondary btn-small\">" ++
  "<i class=\"fas fa-external-link-alt\"></i> Live Demo</a>" ++
  "</div></div></article>"

/-- `renderProjects` (src/app.js 541-577): the section wrapper around the
`join('')` of the per-project cards. -/
def renderProjects (projects : List Project) : String :=
  "<section id=\"projects\" class=\"section\" role=\"region\"" ++
  " aria-labelledby=\"projects-title\">" ++
  "<h2 id=\"projects-title\" class=\"section-title fade-in\">" ++
  "Featured Projects</h2>" ++
  "<div class=\"projects-grid\">" ++
  String.join (projects.map projectCardHtml) ++ "</div></section>"

/-- `portfolioData.skills` (src/app.js 355-362). -/
def portfolioSkills : List Skill :=
  [⟨"HTML", 95, "Frontend", "fab fa-html5"⟩,
   ⟨"CSS", 90, "Frontend", "fab fa-css3-alt"⟩,
   ⟨"JavaScript", 92, "Frontend", "fab fa-js"⟩,
   ⟨"Java", 85, "Backend", "fab fa-java"⟩,
   ⟨"Flutter (Dart)", 88, "Mobile", "fas fa-mobile-alt"⟩,
   ⟨"Firebase", 87, "Backend", "fas fa-fire"⟩]

/-- `portfolioData.featuredProjects` (src/app.js 364-409). -/
def featuredProjects : List Project :=
  [⟨"School Portal",
    "A comprehensive student management and results system for educational institutions",
    "Schools need efficient digital solutions for managing student data and academic records",
    "Built a full-stack portal with user authentication, grade tracking, attendance management, and automated reporting features",
    "Streamlined operations for 500+ students and reduced administrative workload by 40%",
    ["HTML", "CSS", "JavaScript", "Firebase"],
    "https://github.com/NigelBerewere", "#", "fas fa-school"⟩,
   ⟨"Interns & Companies Connector",
    "Platform connecting students with internship opportunities at companies",
    "Significant gap between students seeking internships and companies looking to hire talent",
    "Created a matching platform with user profiles, job listings, application tracking, and communication features",
    "Successfully connected 100+ students with internship opportunities and facilitated 50+ placements",
    ["Flutter", "Firebase", "JavaScript"],
    "https://github.com/NigelBerewere", "#", "fas fa-handshake"⟩,
   ⟨"Numbers",
    "Personal finance management application helping users track and plan their finances",
    "Users struggle to track daily expenses and create effective budget plans",
    "Developed mobile app with expense tracking, budget planning, financial insights, and spending analytics",
    "Helped users save an average of 20% more monthly through better financial awareness",
    ["Flutter (Dart)", "Firebase"],
    "https://github.com/NigelBerewere", "#", "fas fa-chart-line"⟩,
   ⟨"Project & Staff Manager",
    "Company tool for project management and staff organization",
    "Companies need centralized systems for managing projects, tasks, and team members",
    "Built collaborative platform with task assignment, progress tracking, team communication, and reporting dashboards",
    "Increased team productivity by 30% and improved project completion rates",
    ["Java", "JavaScript", "Firebase"],
    "https://github.com/NigelBerewere", "#", "fas fa-tasks"⟩]

/-- Whether `needle` occurs at the head of `hay`. -/
def leadsWith : List Char → List Char → Bool
  | [], _ => true
  | _ :: _, [] => false
  | n :: ns, h :: hs => n == h && leadsWith ns hs

/-- Number of positions of `hay` at which `needle` occurs. -/
def countOcc (needle : List Char) : List Char → Nat
  | [] => 0
  | c :: rest =>
    (if leadsWith needle (c :: rest) then 1 else 0) + countOcc needle rest

/-- The opening markup of a skill card, used to count cards. -/
def skillCardMarker : List Char := "<div class=\"skill-card fade-in\">".data

/-- The opening markup of a project card, used to count cards. -/
def projectCardMarker : List Char :=
  "<article class=\"project-card fade-in\">".data

-- sanity checks against a hand trace of the JS code on phrases ["ab"]
example : run ["ab"] 1 = some ⟨0, 1, false⟩ := by decide
example : run ["ab"] 3 = some ⟨0, 3, true⟩ := by decide
example : run ["ab"] 6 = some ⟨0, 0, false⟩ := by decide
example : renderLog ["ab"] initState 6 =
    some [(false, 0), (false, 1), (false, 2), (true, 3), (true, 2), (true, 1)] := by
  decide

/-! ### Step-branch lemmas for the state transition -/

theorem typeState_undef {texts : List String} {st : TypingState}
    (h : texts[st.textIndex]? = none) : typeState texts st = none := by
  simp [typeState, type, h]

theorem typeState_typing_continue {texts : List String} {st : TypingState}
    {phrase : String} (h : texts[st.textIndex]? = some phrase)
    (hdel : st.isDeleting = false)
    (hle : st.charIndex + 1 ≤ (phrase.length : Int)) :
    typeState texts st = some ⟨st.textIndex, st.charIndex + 1, false⟩ := by
  simp [typeState, type, h, hdel, not_lt.mpr hle]

theorem typeState_typing_overshoot {texts : List String} {st : TypingState}
    {phrase : String} (h : texts[st.textIndex]? = some phrase)
    (hdel : st.isDeleting = false)
    (hgt : (phrase.length : Int) < st.charIndex + 1) :
    typeState texts st = some ⟨st.textIndex, st.charIndex + 1, true⟩ := by
  simp [typeState, type, h, hdel, hgt]

theorem typeState_deleting_continue {texts : List String} {st : TypingState}
    {phrase : String} (h : texts[st.textIndex]? = some phrase)
    (hdel : st.isDeleting = true) (hne : st.charIndex - 1 ≠ 0) :
    typeState texts st = some ⟨st.textIndex, st.charIndex - 1, true⟩ := by
  simp [typeState, type, h, hdel, hne]

theorem typeState_deleting_done {texts : List String} {st : TypingState}
    {phrase : String} (h : texts[st.textIndex]? = some phrase)
    (hdel : st.isDeleting = true) (hz : st.charIndex - 1 = 0) :
    typeState texts st =
      some ⟨(st.textIndex + 1) % texts.length, 0, false⟩ := by
  simp [typeState, type, h, hdel, hz]

/-! ### The reachability invariant -/

theorem inv_initState {texts : List String} (h : texts ≠ []) :
    Inv texts initState := by
  have hlen : 0 < texts.length := List.length_pos.mpr h
  exact ⟨texts[0], List.getElem?_eq_getElem hlen, le_refl 0,
    fun hF => by simp [initState] at hF, fun _ => by positivity⟩

theorem inv_step {texts : List String} {st : TypingState}
    (hInv : Inv texts st) :
    ∃ st2, typeState texts st = some st2 ∧ Inv texts st2 := by
  obtain ⟨phrase, hp, h0, hT, hF⟩ := hInv
  have hN : st.textIndex < texts.length := by
    by_contra hge
    rw [List.getElem?_eq_none (by omega)] at hp
    cases hp
  cases hd : st.isDeleting with
  | false =>
    have hub : st.charIndex ≤ (phrase.length : Int) := hF hd
    rcases lt_or_le (phrase.length : Int) (st.charIndex + 1) with hgt | hle
    · refine ⟨⟨st.textIndex, st.charIndex + 1, true⟩,
        typeState_typing_overshoot hp hd hgt, phrase, hp, ?_, ?_, ?_⟩
      · show (0 : Int) ≤ st.charIndex + 1
        omega
      · intro _
        refine ⟨?_, ?_⟩
        · show (1 : Int) ≤ st.charIndex + 1
          omega
        · show st.charIndex + 1 ≤ (phrase.length : Int) + 1
          omega
      · intro hcontra
        exact absurd hcontra (by simp)
    · refine ⟨⟨st.textIndex, st.charIndex + 1, false⟩,
        typeState_typing_continue hp hd hle, phrase, hp, ?_, ?_, ?_⟩
      · show (0 : Int) ≤ st.charIndex + 1
        omega
      · intro hcontra
        exact absurd hcontra (by simp)
      · intro _
        exact hle
  | true =>
    have h1 : 1 ≤ st.charIndex := (hT hd).1
    have h2 : st.charIndex ≤ (phrase.length : Int) + 1 := (hT hd).2
    by_cases hz : st.charIndex - 1 = 0
    · refine ⟨⟨(st.textIndex + 1) % texts.length, 0, false⟩,
        typeState_deleting_done hp hd hz, ?_⟩
      have hlen : 0 < texts.length := Nat.lt_of_le_of_lt (Nat.zero_le _) hN
      have hm : (st.textIndex + 1) % texts.length < texts.length :=
        Nat.mod_lt _ hlen
      refine ⟨texts[(st.textIndex + 1) % texts.length],
        List.getElem?_eq_getElem hm, le_refl 0, ?_, ?_⟩
      · intro hcontra
        exact absurd hcontra (by simp)
      · intro _
        show (0 : Int) ≤ _
        positivity
    · refine ⟨⟨st.textIndex, st.charIndex - 1, true⟩,
        typeState_deleting_continue hp hd hz, phrase, hp, ?_, ?_, ?_⟩
      · show (0 : Int) ≤ st.charIndex - 1
        omega
      · intro _
        refine ⟨?_, ?_⟩
        · show (1 : Int) ≤ st.charIndex - 1
          omega
        · show st.charIndex - 1 ≤ (phrase.length : Int) + 1
          omega
      · intro hcontra
        exact absurd hcontra (by simp)

theorem inv_runFrom {texts : List String} {st : TypingState}
    (hInv : Inv texts st) :
    ∀ n, ∃ st2, runFrom texts st n = some st2 ∧ Inv texts st2 := by
  intro n
  induction n generalizing st with
  | zero => exact ⟨st, rfl, hInv⟩
  | succ n ih =>
    obtain ⟨st1, hstep, hInv1⟩ := inv_step hInv
    obtain ⟨st2, hrun, hInv2⟩ := ih hInv1
    exact ⟨st2, by simp [runFrom, hstep, hrun], hInv2⟩

theorem runFrom_add (texts : List String) (st : TypingState) (m n : Nat) :
    runFrom texts st (m + n) =
      (runFrom texts st m).bind fun s2 => runFrom texts s2 n := by
  induction m generalizing st with
  | zero => simp [runFrom]
  | succ m ih =>
    have hmn : m + 1 + n = (m + n) + 1 := by omega
    rw [hmn]
    cases h : typeState texts st with
    | none => simp [runFrom, h]
    | some s1 => simp [runFrom, h, ih]

theorem run_isSome_of_ne_nil {texts : List String} (h : texts ≠ []) (n : Nat) :
    (run texts n).isSome = true := by
  obtain ⟨st, hrun, -⟩ := inv_runFrom (inv_initState h) n
  simp [run, hrun]

/-! ### Phase lemmas: one full type/delete cycle of a phrase -/

theorem typing_phase {texts : List String} {i : Nat} {phrase : String}
    (hp : texts[i]? = some phrase) :
    ∀ j, j ≤ phrase.length →
      runFrom texts ⟨i, ((phrase.length - j : Nat) : Int), false⟩ (j + 1) =
        some ⟨i, (phrase.length : Int) + 1, true⟩ := by
  intro j
  induction j with
  | zero =>
    intro _
    have hstep :
        typeState texts ⟨i, ((phrase.length - 0 : Nat) : Int), false⟩ =
          some ⟨i, ((phrase.length - 0 : Nat) : Int) + 1, true⟩ :=
      typeState_typing_overshoot hp rfl
        (by show (phrase.length : Int) < ((phrase.length - 0 : Nat) : Int) + 1; omega)
    simp only [Nat.sub_zero] at hstep
    simp [runFrom, hstep]
  | succ j ih =>
    intro hj
    have hstep :
        typeState texts ⟨i, ((phrase.length - (j + 1) : Nat) : Int), false⟩ =
          some ⟨i, ((phrase.length - (j + 1) : Nat) : Int) + 1, false⟩ :=
      typeState_typing_continue hp rfl
        (by show ((phrase.length - (j + 1) : Nat) : Int) + 1 ≤ (phrase.length : Int)
            omega)
    have hc : ((phrase.length - (j + 1) : Nat) : Int) + 1 =
        ((phrase.length - j : Nat) : Int) := by omega
    rw [show j + 1 + 1 = (j + 1) + 1 from rfl]
    simp only [runFrom, hstep, Option.bind_some]
    rw [hc]
    exact ih (by omega)

theorem deleting_phase {texts : List String} {i : Nat} {phrase : String}
    (hp : texts[i]? = some phrase) :
    ∀ j, runFrom texts ⟨i, ((j + 1 : Nat) : Int), true⟩ (j + 1) =
      some ⟨(i + 1) % texts.length, 0, false⟩ := by
  intro j
  induction j with
  | zero =>
    have hstep : typeState texts ⟨i, ((1 : Nat) : Int), true⟩ =
        some ⟨(i + 1) % texts.length, 0, false⟩ :=
      typeState_deleting_done hp rfl
        (by show ((1 : Nat) : Int) - 1 = 0; omega)
    simp only [Nat.cast_one] at hstep
    simp [runFrom, hstep]
  | succ j ih =>
    have hstep : typeState texts ⟨i, ((j + 2 : Nat) : Int), true⟩ =
        some ⟨i, ((j + 2 : Nat) : Int) - 1, true⟩ :=
      typeState_deleting_continue hp rfl
        (by show ((j + 2 : Nat) : Int) - 1 ≠ 0; omega)
    have hc : ((j + 2 : Nat) : Int) - 1 = ((j + 1 : Nat) : Int) := by omega
    simp only [runFrom, hstep, Option.bind_some]
    rw [hc]
    exact ih

theorem full_cycle {texts : List String} {i : Nat} {phrase : String}
    (hp : texts[i]? = some phrase) :
    runFrom texts ⟨i, 0, false⟩ (cycleSteps phrase) =
      some ⟨(i + 1) % texts.length, 0, false⟩ := by
  have hsplit : cycleSteps phrase = (phrase.length + 1) + (phrase.length + 1) := by
    simp [cycleSteps]; omega
  rw [hsplit, runFrom_add]
  have h1 : runFrom texts ⟨i, 0, false⟩ (phrase.length + 1) =
      some ⟨i, (phrase.length : Int) + 1, true⟩ := by
    have := typing_phase hp phrase.length (le_refl _)
    simpa using this
  rw [h1]
  have h2 : runFrom texts ⟨i, (phrase.length : Int) + 1, true⟩
      (phrase.length + 1) = some ⟨(i + 1) % texts.length, 0, false⟩ := by
    have := deleting_phase hp phrase.length
    have hc : ((phrase.length + 1 : Nat) : Int) = (phrase.length : Int) + 1 := by
      omega
    rwa [hc] at this
  simpa using h2

theorem closure_aux {texts : List String} (h : texts ≠ []) :
    ∀ j, j ≤ texts.length →
      run texts (sumSteps texts j) = some ⟨j % texts.length, 0, false⟩ := by
  have hlen : 0 < texts.length := List.length_pos.mpr h
  intro j
  induction j with
  | zero =>
    intro _
    rw [Nat.zero_mod]
    rfl
  | succ j ih =>
    intro hj
    have hjlt : j < texts.length := by omega
    have htake : texts.take (j + 1) = texts.take j ++ [texts[j]] := by
      rw [List.take_succ]
      simp [List.getElem?_eq_getElem hjlt]
    have hsum : sumSteps texts (j + 1) =
        sumSteps texts j + cycleSteps texts[j] := by
      unfold sumSteps
      rw [htake, List.map_append, List.sum_append]
      simp
    rw [hsum]
    unfold run
    rw [runFrom_add]
    have hrj := ih (by omega)
    unfold run at hrj
    rw [hrj]
    have hmod : j % texts.length = j := Nat.mod_eq_of_lt hjlt
    have hcycle := @full_cycle texts j texts[j]
      (List.getElem?_eq_getElem hjlt)
    simp only [Option.bind_some, hmod]
    exact hcycle

theorem type_state_eq (texts : List String) (ts ds : Nat) (st : TypingState) :
    (type texts ts ds st).map (·.state) = typeState texts st := by
  unfold typeState
  cases hg : texts[st.textIndex]? with
  | none => simp [type, hg]
  | some phrase =>
    by_cases hd : st.isDeleting
    · by_cases hz : st.charIndex - 1 = 0 <;> simp [type, hg, hd, hz]
    · by_cases hgt : st.charIndex + 1 > (phrase.length : Int) <;>
        simp [type, hg, hd, hgt]

theorem type_timers_length {texts : List String} {ts ds : Nat}
    {st : TypingState} {r : StepResult} (h : type texts ts ds st = some r) :
    r.timers.length = 1 := by
  unfold type at h
  split at h
  · cases h
  · split at h <;> (dsimp only at h; split at h <;>
      (injection h with h2; subst h2; rfl))

theorem type_some_of_idx {texts : List String} (ts ds : Nat)
    {st : TypingState} {phrase : String}
    (hp : texts[st.textIndex]? = some phrase) :
    ∃ r, type texts ts ds st = some r := by
  rw [← Option.isSome_iff_exists]
  by_cases hd : st.isDeleting
  · by_cases hz : st.charIndex - 1 = 0 <;> simp [type, hp, hd, hz]
  · by_cases hgt : st.charIndex + 1 > (phrase.length : Int) <;>
      simp [type, hp, hd, hgt]

/-! ## Claim theorems -/

/-- C1, counterexample: the claim that `cursorPosition` never exceeds the
current phrase's length fails on the code.  With phrases `["ab"]`, after the
third tick (the one that finishes typing "ab"), `charIndex` is 3 while the
phrase length is 2: the cursor overshoots to length + 1 before the pause. -/
theorem C1_counterexample :
    run ["ab"] 3 = some ⟨0, 3, true⟩ ∧
    ¬((⟨0, 3, true⟩ : TypingState).charIndex ≤ (("ab" : String).length : Int)) := by
  exact ⟨by decide, by decide⟩

/-- C1, amended: at every reachable state of the machine, for any non-empty
phrase list, `charIndex` lies in `[0, length(currentPhrase) + 1]`; the value
`length + 1` occurs only in deleting mode (the post-typing overshoot), and
while typing the original bound `[0, length]` does hold. -/
theorem C1_cursor_bounds :
    ∀ texts : List String, texts ≠ [] → ∀ (n : Nat) (st : TypingState),
      run texts n = some st →
      ∃ phrase, texts[st.textIndex]? = some phrase ∧
        0 ≤ st.charIndex ∧ st.charIndex ≤ (phrase.length : Int) + 1 ∧
        (st.isDeleting = false → st.charIndex ≤ (phrase.length : Int)) := by
  intro texts hne n st hrun
  obtain ⟨st2, hrun2, hInv⟩ := inv_runFrom (inv_initState hne) n
  have hst : st2 = st := by
    have := hrun2.symm.trans hrun
    exact (Option.some.inj this)
  subst hst
  obtain ⟨phrase, hp, h0, hT, hF⟩ := hInv
  refine ⟨phrase, hp, h0, ?_, hF⟩
  cases hd : st2.isDeleting with
  | true => exact (hT hd).2
  | false =>
    have := hF hd
    omega

theorem C1_cursor_bounds_witness :
    ∃ phrase, (["ab"] : List String)[(⟨0, 3, true⟩ : TypingState).textIndex]? =
        some phrase ∧
      (0 : Int) ≤ 3 ∧ (3 : Int) ≤ (phrase.length : Int) + 1 ∧
      ((⟨0, 3, true⟩ : TypingState).isDeleting = false →
        (3 : Int) ≤ (phrase.length : Int)) :=
  C1_cursor_bounds ["ab"] (by decide) 3 ⟨0, 3, true⟩ (by decide)

/-- C2, counterexample: for phrases `["ab"]` the fourth rendered
`(mode, cursorPosition)` pair is `Deleting@3` (the overshot cursor, clamped
by `substring` to the full phrase), not `Deleting@1` as the claimed sequence
`Typing@0, Typing@1, Typing@2, Deleting@1, Deleting@0` would have it. -/
theorem C2_counterexample :
    renderLog ["ab"] initState 4 =
      some [(false, 0), (false, 1), (false, 2), (true, 3)] ∧
    renderLog ["ab"] initState 4 ≠
      some [(false, 0), (false, 1), (false, 2), (true, 1)] := by
  exact ⟨by decide, by decide⟩

/-- C2, amended: for phrases `["ab"]` the rendered `(mode, cursorPosition)`
sequence is `Typing@0, Typing@1, Typing@2 (pause), Deleting@3, Deleting@2,
Deleting@1`, after which the state returns to the initial state, so the
cycle repeats with period 6 (`Deleting@0` is never rendered: the mode flips
back to typing in the same tick that reaches 0). -/
theorem C2_render_cycle :
    renderLog ["ab"] initState 6 =
      some [(false, 0), (false, 1), (false, 2), (true, 3), (true, 2), (true, 1)] ∧
    run ["ab"] 6 = some initState ∧
    ∀ n : Nat, run ["ab"] (n + 6) = run ["ab"] n := by
  refine ⟨by decide, by decide, ?_⟩
  intro n
  have h6 : runFrom ["ab"] initState 6 = some initState := by decide
  show runFrom ["ab"] initState (n + 6) = runFrom ["ab"] initState n
  rw [Nat.add_comm, runFrom_add, h6]
  rfl

/-- C5: after fully typing and fully deleting phrase `i` (its
`2 * length + 2` ticks), the next phrase index is `(i + 1) mod N`; after all
`N` phrases are cycled once from the initial state the machine is back in
the initial state; and a single-phrase list never wedges (every step
succeeds forever). -/
theorem C5_phrase_advance :
    (∀ (texts : List String) (i : Nat) (phrase : String),
      texts[i]? = some phrase →
      runFrom texts ⟨i, 0, false⟩ (2 * phrase.length + 2) =
        some ⟨(i + 1) % texts.length, 0, false⟩) ∧
    (∀ texts : List String, texts ≠ [] →
      run texts (sumSteps texts texts.length) = some initState) ∧
    (∀ (t : String) (n : Nat), (run [t] n).isSome = true) := by
  refine ⟨?_, ?_, ?_⟩
  · intro texts i phrase hp
    exact full_cycle hp
  · intro texts hne
    have hcl := closure_aux hne texts.length (le_refl _)
    rwa [Nat.mod_self] at hcl
  · intro t n
    exact run_isSome_of_ne_nil (by simp) n

theorem C5_phrase_advance_witness :
    runFrom ["ab"] ⟨0, 0, false⟩ (2 * ("ab" : String).length + 2) =
      some ⟨(0 + 1) % (["ab"] : List String).length, 0, false⟩ ∧
    run ["ab"] (sumSteps ["ab"] (["ab"] : List String).length) = some initState ∧
    (run ["x"] 7).isSome = true :=
  ⟨C5_phrase_advance.1 ["ab"] 0 "ab" (by decide),
   C5_phrase_advance.2.1 ["ab"] (by decide),
   C5_phrase_advance.2.2 "x" 7⟩

/-- C6: every invocation of `type()` schedules exactly one future invocation
(either the 2000 ms pause timer or the next tick, never both), and in the
event-loop accounting the number of pending activations for the machine is
exactly 1 after every step. -/
theorem C6_single_timer :
    (∀ (texts : List String) (ts ds : Nat) (st : TypingState) (r : StepResult),
      type texts ts ds st = some r → r.timers.length = 1) ∧
    (∀ texts : List String, texts ≠ [] → ∀ (ts ds n : Nat),
      pendingTimers texts ts ds n = some 1) := by
  constructor
  · intro _ _ _ _ _ h
    exact type_timers_length h
  · intro texts hne ts ds n
    induction n with
    | zero => rfl
    | succ n ih =>
      obtain ⟨st, hrun, hInv⟩ := inv_runFrom (inv_initState hne) n
      obtain ⟨phrase, hp, -⟩ := hInv
      obtain ⟨r, hr⟩ := type_some_of_idx ts ds hp
      have hlen1 : r.timers.length = 1 := type_timers_length hr
      have hrun' : run texts n = some st := hrun
      simp [pendingTimers, hrun', hr, ih, hlen1]

theorem C6_single_timer_witness :
    ((⟨"ab" ++ cursorSpan, ⟨0, 3, true⟩, [2000]⟩ : StepResult).timers.length = 1) ∧
    pendingTimers ["ab"] 80 50 4 = some 1 :=
  ⟨C6_single_timer.1 ["ab"] 80 50 ⟨0, 2, false⟩
      ⟨"ab" ++ cursorSpan, ⟨0, 3, true⟩, [2000]⟩ (by decide),
   C6_single_timer.2 ["ab"] (by decide) 80 50 4⟩

/-- C7: with a non-empty phrase list every step of the machine succeeds
forever (the phrase lookup is always defined and rendering is total), while
for the empty phrase list the very first step fails: `texts[0]` is
undefined. -/
theorem C7_no_error_paths :
    (∀ texts : List String, texts ≠ [] → ∀ n : Nat,
      (run texts n).isSome = true) ∧
    run ([] : List String) 1 = none := by
  exact ⟨fun _ h n => run_isSome_of_ne_nil h n, by decide⟩

theorem C7_no_error_paths_witness : (run ["ab"] 5).isSome = true :=
  C7_no_error_paths.1 ["ab"] (by decide) 5

/-- C10: at every reachable step, the string written to the display is
`currentText.substring(0, charIndex)` followed by the cursor marker; this is
always a prefix of the current phrase, and in the overshoot state
(`charIndex = length + 1`) `substring` clamps, so the full phrase is
rendered and the output is never out of bounds. -/
theorem C10_rendered_prefix :
    ∀ (texts : List String) (ts ds n : Nat) (st : TypingState) (r : StepResult),
      run texts n = some st → type texts ts ds st = some r →
      ∃ phrase, texts[st.textIndex]? = some phrase ∧
        r.rendered = jsSubstring phrase st.charIndex ++ cursorSpan ∧
        (∃ rest, phrase.data = (jsSubstring phrase st.charIndex).data ++ rest) ∧
        (st.charIndex = (phrase.length : Int) + 1 →
          r.rendered = phrase ++ cursorSpan) := by
  intro texts ts ds n st r _ htype
  unfold type at htype
  split at htype
  · cases htype
  · rename_i phrase hg
    have hfull : st.charIndex = (phrase.length : Int) + 1 →
        jsSubstring phrase st.charIndex = phrase := by
      intro hc
      have hlen : phrase.data.length ≤ st.charIndex.toNat := by
        show phrase.length ≤ st.charIndex.toNat
        omega
      show String.mk (phrase.data.take st.charIndex.toNat) = phrase
      rw [List.take_of_length_le hlen]
    refine ⟨phrase, hg, ?_⟩
    split at htype <;> (dsimp only at htype; split at htype) <;>
      (injection htype with h2; subst h2;
       exact ⟨rfl, ⟨phrase.data.drop st.charIndex.toNat,
         (List.take_append_drop _ _).symm⟩,
         fun hc => by rw [show (jsSubstring phrase st.charIndex ++ cursorSpan :
           String) = phrase ++ cursorSpan from by rw [hfull hc]]⟩)

theorem C10_rendered_prefix_witness :
    ∃ phrase, (["ab"] : List String)[(⟨0, 3, true⟩ : TypingState).textIndex]? =
        some phrase ∧
      ("ab" ++ cursorSpan : String) = jsSubstring phrase 3 ++ cursorSpan ∧
      (∃ rest, phrase.data = (jsSubstring phrase 3).data ++ rest) ∧
      ((3 : Int) = (phrase.length : Int) + 1 →
        ("ab" ++ cursorSpan : String) = phrase ++ cursorSpan) :=
  C10_rendered_prefix ["ab"] 80 50 3 ⟨0, 3, true⟩
    ⟨"ab" ++ cursorSpan, ⟨0, 2, true⟩, [50]⟩ (by decide) (by decide)

/-! ### RevealOnScroll lemmas and claims -/

theorem skillStep_dataWidth (t : SkillTarget) (e : Bool) :
    (skillStep t e).dataWidth = t.dataWidth := by
  cases he : e <;> cases hw : t.dataWidth <;> simp [skillStep, hw]

theorem skillRun_visible (events : List Bool) : ∀ t : SkillTarget,
    (skillRun t events).visible = (t.visible || events.any fun b => b) := by
  induction events with
  | nil => intro t; simp [skillRun]
  | cons e rest ih =>
    intro t
    show (skillRun (skillStep t e) rest).visible = _
    rw [ih]
    cases he : e
    · simp [skillStep]
    · cases hw : t.dataWidth <;> simp [skillStep, hw]

theorem skillRun_width_writes (w : String) (events : List Bool) :
    ∀ t : SkillTarget, t.dataWidth = some w →
      (skillRun t events).writes = t.writes + (events.countP fun b => b) ∧
      (skillRun t events).skillWidth =
        (if events.any (fun b => b) then some w else t.skillWidth) := by
  induction events with
  | nil => intro t _; simp [skillRun]
  | cons e rest ih =>
    intro t hw
    cases e with
    | false =>
      have ht : skillStep t false = t := by simp [skillStep]
      have hstep : skillRun t (false :: rest) =
          skillRun (skillStep t false) rest := rfl
      obtain ⟨ihw, ihs⟩ := ih t hw
      rw [hstep, ht]
      refine ⟨?_, ?_⟩
      · rw [ihw]; simp [List.countP_cons]
      · rw [ihs]; simp [List.any_cons]
    | true =>
      have ht : skillStep t true =
          ⟨true, some w, some w, t.writes + 1⟩ := by simp [skillStep, hw]
      have hstep : skillRun t (true :: rest) =
          skillRun (skillStep t true) rest := rfl
      obtain ⟨ihw, ihs⟩ := ih (skillStep t true)
        (by rw [skillStep_dataWidth]; exact hw)
      rw [hstep]
      refine ⟨?_, ?_⟩
      · rw [ihw, ht]
        simp [List.countP_cons]
        omega
      · rw [ihs, ht]
        simp [List.any_cons]

/-- C4: the `'visible'` marker is a one-way latch under both the
`ScrollAnimator` and the `SkillBarsAnimator` callbacks: once an element's
revealed state is set by an intersection event, no sequence of later
visibility-change events unsets it. -/
theorem C4_reveal_latch :
    ∀ (events : List Bool) (v : Bool) (t : SkillTarget),
      (v = true → scrollRun v events = true) ∧
      (t.visible = true → (skillRun t events).visible = true) := by
  intro events v t
  constructor
  · intro hv
    subst hv
    induction events with
    | nil => rfl
    | cons e rest ih =>
      show scrollRun (scrollStep true e) rest = true
      have hs : scrollStep true e = true := by cases e <;> rfl
      rw [hs]
      exact ih
  · intro ht
    rw [skillRun_visible, ht]
    simp

theorem C4_reveal_latch_witness :
    scrollRun true [false, true, false] = true ∧
    (skillRun ⟨true, some "88%", none, 0⟩ [true, false]).visible = true :=
  ⟨(C4_reveal_latch [false, true, false] true ⟨true, some "88%", none, 0⟩).1 rfl,
   (C4_reveal_latch [true, false] true ⟨true, some "88%", none, 0⟩).2 rfl⟩

/-- C3, counterexample: the claimed "exactly one write, later visibility
changes cause no further write" fails on the code.  The callback rewrites
`--skill-width` on every intersecting event: a target with `data-width`
"88%" that enters, leaves and re-enters the viewport receives two
`setProperty` writes, not one. -/
theorem C3_counterexample :
    (skillRun (freshSkillTarget "88%") [true, false, true]).writes = 2 ∧
    (2 : Nat) ≠ 1 :=
  ⟨by decide, by decide⟩

/-- C3, amended: every intersecting event performs the write (so re-entry
writes again), but each write stores the same recorded `data-width` value,
so `--skill-width` holds exactly that value from the first reveal on and
the observable output never changes afterward; the write count equals the
number of intersecting events, and non-intersecting events are no-ops. -/
theorem C3_skill_width_stable :
    ∀ (w : String) (events : List Bool),
      (skillRun (freshSkillTarget w) events).writes =
        (events.countP fun b => b) ∧
      (skillRun (freshSkillTarget w) events).skillWidth =
        (if events.any (fun b => b) then some w else none) ∧
      (skillRun (freshSkillTarget w) events).visible =
        (events.any fun b => b) := by
  intro w events
  obtain ⟨h1, h2⟩ := skillRun_width_writes w events (freshSkillTarget w) rfl
  exact ⟨by simpa [freshSkillTarget] using h1,
    by simpa [freshSkillTarget] using h2,
    by simpa [freshSkillTarget] using
      skillRun_visible events (freshSkillTarget w)⟩

/-! ### ContactForm claims -/

/-- C8: submitting the form with any required field blank or a malformed
email shows the error banner, performs no send and leaves the fields
untouched; with all fields valid, the simulated send always resolves, the
success banner is shown and the form is reset; no path performs network
I-O, and the simulated submission never fails. -/
theorem C8_submit :
    ∀ f : ContactFields,
      (validateForm f =
        (!isBlank f.name && (!isBlank f.email && emailShape f.email) &&
         !isBlank f.message)) ∧
      (validateForm f = false →
        handleSubmit f =
          ⟨.error "Please fix the errors before submitting", none, f, false⟩) ∧
      (validateForm f = true →
        handleSubmit f =
          ⟨.success "Message sent successfully", some f, resetFields,
            false⟩) ∧
      (handleSubmit f).usedNetwork = false ∧
      simulateSubmission f = .ok () := by
  intro f
  refine ⟨?_, ?_, ?_, ?_, rfl⟩
  · cases he : isBlank f.email <;>
      simp [validateForm, validateField, he]
  · intro h
    simp [handleSubmit, h, simulateSubmission]
  · intro h
    simp [handleSubmit, h, simulateSubmission]
  · by_cases hv : validateForm f <;>
      simp [handleSubmit, hv, simulateSubmission]

theorem C8_submit_witness :
    handleSubmit ⟨"Nigel", "nigelberewere@gmail.com", "Hi", "Hello"⟩ =
      ⟨.success "Message sent successfully",
        some ⟨"Nigel", "nigelberewere@gmail.com", "Hi", "Hello"⟩,
        resetFields, false⟩ ∧
    handleSubmit ⟨"", "not-an-email", "", ""⟩ =
      ⟨.error "Please fix the errors before submitting", none,
        ⟨"", "not-an-email", "", ""⟩, false⟩ :=
  ⟨(C8_submit ⟨"Nigel", "nigelberewere@gmail.com", "Hi", "Hello"⟩).2.2.1
      (by decide),
   (C8_submit ⟨"", "not-an-email", "", ""⟩).2.1 (by decide)⟩

/-! ### View-composition claims -/

set_option maxRecDepth 40000

/-- C9: one render pass maps the skill list and the featured-project list
one-to-one onto cards: K skills yield exactly K skill cards and M projects
exactly M project cards, the i-th card being built from the i-th entry
alone; concretely, a 4-entry skill list renders markup containing the skill
card opening exactly 4 times, and each of the repository's 4 featured
projects renders a card containing the project-card opening exactly once. -/
theorem C9_render_pass :
    (∀ skills : List Skill,
      (skills.map skillCardHtml).length = skills.length) ∧
    (∀ (skills : List Skill) (i : Nat),
      (skills.map skillCardHtml)[i]? = (skills[i]?).map skillCardHtml) ∧
    (∀ projects : List Project,
      (projects.map projectCardHtml).length = projects.length) ∧
    (∀ (projects : List Project) (i : Nat),
      (projects.map projectCardHtml)[i]? =
        (projects[i]?).map projectCardHtml) ∧
    countOcc skillCardMarker (renderSkills (portfolioSkills.take 4)).data = 4 ∧
    ((featuredProjects.map projectCardHtml).map
        (fun c => countOcc projectCardMarker c.data) = [1, 1, 1, 1] ∧
      (featuredProjects.map projectCardHtml).length = 4) := by
  refine ⟨fun skills => List.length_map skills skillCardHtml,
    fun skills i => List.getElem?_map skillCardHtml skills i,
    fun projects => List.length_map projects projectCardHtml,
    fun projects i => List.getElem?_map projectCardHtml projects i,
    by decide, by decide, by decide⟩

end Portfolio
